import Mathlib

/-!
Shallow embedding of the station-rotation core of `src/app.py`
(`ProductionRotation`, the Line C validation helper, and the submit flow
of `main`), together with theorems checking the specification's claims.

Python dictionaries `Dict[str, List[int]]` are modelled as association
lists with `dget` playing the role of `dict.get(key, [])`; Python
`sorted(list(set(xs)))` is modelled by `pySortedSet`.
-/

/-- `LINES` constant of app.py. -/
def LINES : List String := ["B", "C", "L", "M", "N", "O"]

/-- `STATIONS = list(range(1, 21))` of app.py, as integers. -/
def STATIONS : List Int := (List.range 20).map (fun i => (i : Int) + 1)

/-- Python `sorted(list(set(l)))`: deduplicate, then sort ascending. -/
def pySortedSet (l : List Int) : List Int := List.insertionSort (· ≤ ·) l.dedup

/-- Model of a Python `Dict[str, List[int]]`. -/
abbrev Dct := List (String × List Int)

/-- Python `d.get(k, [])`. -/
def dget (d : Dct) (k : String) : List Int := (List.lookup k d).getD []

/-- State of the `ProductionRotation` class of app.py. -/
structure ProductionRotation where
  lines : List String
  stations : List Int
  non_operational_stations : Dct
  fixed_stations : Dct

/-- `ProductionRotation()` constructor: both dictionaries start empty. -/
def ProductionRotation.new : ProductionRotation :=
  { lines := LINES, stations := STATIONS,
    non_operational_stations := [], fixed_stations := [] }

/-- `set_non_operational`: store `sorted(list(set(stations)))` under `line`
(a dictionary overwrite, modelled by consing the new binding in front). -/
def ProductionRotation.set_non_operational (r : ProductionRotation) (line : String)
    (stations : List Int) : ProductionRotation :=
  { r with non_operational_stations := (line, pySortedSet stations) :: r.non_operational_stations }

/-- `set_fixed`: same contract, into the fixed-stations dictionary. -/
def ProductionRotation.set_fixed (r : ProductionRotation) (line : String)
    (stations : List Int) : ProductionRotation :=
  { r with fixed_stations := (line, pySortedSet stations) :: r.fixed_stations }

/-- `get_operational_stations`:
`sorted([s for s in self.stations if s not in non_op_for_line])`. -/
def ProductionRotation.get_operational_stations (r : ProductionRotation)
    (line : String) : List Int :=
  let non_op_for_line := dget r.non_operational_stations line
  List.insertionSort (· ≤ ·) (r.stations.filter (fun s => s ∉ non_op_for_line))

/-- `mirror_pair`: sort the deduplicated input into `S` of length `n`, emit
`f"{S[i]}-{S[n-1-i]}"` for `i < n // 2`, and a middle self-pair when `n` is odd. -/
def mirror_pair (stations_to_pair : List Int) : List String :=
  let sorted_stations := pySortedSet stations_to_pair
  let n := sorted_stations.length
  let pairs := (List.range (n / 2)).map (fun i =>
    toString (sorted_stations.getD i 0) ++ "-" ++ toString (sorted_stations.getD (n - 1 - i) 0))
  if n % 2 ≠ 0 then
    pairs ++ [toString (sorted_stations.getD (n / 2) 0) ++ "-" ++
      toString (sorted_stations.getD (n / 2) 0)]
  else pairs

/-- `generate_pairs`: special-cased for line `"C"` (fixed self-pairs first,
then the mirror pairs of the remainder), mirror pairing of the operational
stations for every other line. -/
def ProductionRotation.generate_pairs (r : ProductionRotation) (line : String) : List String :=
  if line = "C" then
    let fixed_c_stations_input := dget r.fixed_stations "C"
    let valid_fixed_stations_for_pairing := fixed_c_stations_input.filter
      (fun s => s ∈ r.stations)
    let pairs := valid_fixed_stations_for_pairing.map (fun s => toString s ++ "-" ++ toString s)
    let non_op_for_c := dget r.non_operational_stations "C"
    let remaining_for_mirror_pairing_c := r.stations.filter
      (fun s => s ∉ valid_fixed_stations_for_pairing ∧ s ∉ non_op_for_c)
    if remaining_for_mirror_pairing_c = [] ∧ valid_fixed_stations_for_pairing = [] then []
    else if remaining_for_mirror_pairing_c ≠ [] then
      pairs ++ mirror_pair remaining_for_mirror_pairing_c
    else pairs
  else
    let operational_stations := r.get_operational_stations line
    if operational_stations = [] then []
    else mirror_pair operational_stations

/-- `generate_schedule`: the date string comes from `datetime.now()` outside
the embedded core, so it is a parameter here. -/
def ProductionRotation.generate_schedule (r : ProductionRotation) (date_str : String) :
    String × List (String × List String) :=
  (date_str, r.lines.map (fun line_code => (line_code, r.generate_pairs line_code)))

/-- The sorted common stations computed by `validate_line_c_configuration`
(the intersection of the accommodated and unavailable sets for line C). -/
def line_c_common_stations (accommodation_c : List Int) (non_operational : Dct) : List Int :=
  pySortedSet (accommodation_c.filter (fun s => s ∈ dget non_operational "C"))

/-- `validate_line_c_configuration`: `True` exactly when the intersection of
the accommodated and unavailable station sets for line C is empty. -/
def validate_line_c_configuration (accommodation_c : List Int)
    (non_operational : Dct) : Bool :=
  (line_c_common_stations accommodation_c non_operational).isEmpty

/-- The submit branch of `main` in app.py: validate first and stop (produce
no schedule) on conflict; otherwise configure a fresh engine from the session
state and generate the schedule. -/
def main_submit (non_operational : Dct) (accommodation_c : List Int)
    (date_str : String) : Option (String × List (String × List String)) :=
  if validate_line_c_configuration accommodation_c non_operational then
    let configured := LINES.foldl
      (fun r line_code => r.set_non_operational line_code (dget non_operational line_code))
      ProductionRotation.new
    let configured2 := configured.set_fixed "C" accommodation_c
    some (configured2.generate_schedule date_str)
  else none

/-- The pairs of `mirror_pair` before string rendering, read off an already
sorted deduplicated sequence `S`: `(S[i], S[n-1-i])` for `i < n / 2`, plus the
middle self-pair when `n` is odd. -/
def mirrorIdxPairs (S : List Int) : List (Int × Int) :=
  ((List.range (S.length / 2)).map (fun i => (S.getD i 0, S.getD (S.length - 1 - i) 0))) ++
    (if S.length % 2 ≠ 0 then [(S.getD (S.length / 2) 0, S.getD (S.length / 2) 0)] else [])

/-- Rendering of one pair as the label `"low-high"`. -/
def renderPair (p : Int × Int) : String := toString p.1 ++ "-" ++ toString p.2

/-- Whether the station `s` occurs in the pair `p` (as either member). -/
def pairHas (s : Int) (p : Int × Int) : Bool := s == p.1 || s == p.2

/-- The valid fixed stations of line C as `generate_pairs` computes them when
the fixed set `fs` is stored: the stored sorted set intersected with the
station universe. -/
def validFixedC (fs : List Int) : List Int :=
  (pySortedSet fs).filter (fun s => s ∈ STATIONS)

/-- The remainder of line C that `generate_pairs` mirror-pairs when fixed set
`fs` and unavailable set `us` are stored. -/
def remainderC (fs us : List Int) : List Int :=
  STATIONS.filter (fun s => s ∉ validFixedC fs ∧ s ∉ pySortedSet us)

/-- All pairs line C emits, at the pair level: fixed self-pairs first, then
the mirror pairs of the remainder. -/
def lineCPairs (fs us : List Int) : List (Int × Int) :=
  (validFixedC fs).map (fun a => (a, a)) ++ mirrorIdxPairs (remainderC fs us)

lemma pySortedSet_sorted (l : List Int) : (pySortedSet l).Sorted (· ≤ ·) :=
  List.sorted_insertionSort _ _

lemma pySortedSet_perm_dedup (l : List Int) : List.Perm (pySortedSet l) l.dedup :=
  List.perm_insertionSort _ _

lemma pySortedSet_nodup (l : List Int) : (pySortedSet l).Nodup :=
  (pySortedSet_perm_dedup l).nodup_iff.mpr (List.nodup_dedup l)

lemma pySortedSet_mem (l : List Int) (a : Int) : a ∈ pySortedSet l ↔ a ∈ l := by
  rw [(pySortedSet_perm_dedup l).mem_iff, List.mem_dedup]

lemma pySortedSet_eq_self (l : List Int) (hnd : l.Nodup) (hs : l.Sorted (· ≤ ·)) :
    pySortedSet l = l := by
  unfold pySortedSet
  rw [hnd.dedup, hs.insertionSort_eq]

lemma pySortedSet_congr (l1 l2 : List Int) (h : ∀ a, a ∈ l1 ↔ a ∈ l2) :
    pySortedSet l1 = pySortedSet l2 := by
  have hperm : List.Perm l1.dedup l2.dedup :=
    (List.perm_ext_iff_of_nodup (List.nodup_dedup l1) (List.nodup_dedup l2)).mpr
      (fun a => by rw [List.mem_dedup, List.mem_dedup]; exact h a)
  exact List.eq_of_perm_of_sorted
    (((pySortedSet_perm_dedup l1).trans hperm).trans (pySortedSet_perm_dedup l2).symm)
    (pySortedSet_sorted l1) (pySortedSet_sorted l2)

lemma dget_cons_self (k : String) (v : List Int) (d : Dct) :
    dget ((k, v) :: d) k = v := by
  simp [dget, List.lookup]

lemma dget_cons_ne (k k' : String) (v : List Int) (d : Dct) (h : k ≠ k') :
    dget ((k, v) :: d) k' = dget d k' := by
  have hbe : (k' == k) = false := beq_eq_false_iff_ne.mpr (Ne.symm h)
  simp [dget, List.lookup, hbe]

lemma dget_nil (k : String) : dget [] k = [] := rfl

/-- If exactly one index below `k` satisfies `p`, the count over `range k` is 1. -/
lemma countP_range_one (p : Nat → Bool) (k i0 : Nat) (h0 : i0 < k) (hp : p i0 = true)
    (huniq : ∀ j, j < k → p j = true → j = i0) :
    (List.range k).countP p = 1 := by
  induction k with
  | zero => omega
  | succ m ih =>
    rw [List.range_succ, List.countP_append]
    by_cases hm : i0 = m
    · subst hm
      have hz : (List.range i0).countP p = 0 := by
        rw [List.countP_eq_zero]
        intro a ha hpa
        rw [List.mem_range] at ha
        have := huniq a (Nat.lt_succ_of_lt ha) hpa
        omega
      simp [hz, hp]
    · have h0' : i0 < m := by omega
      have hpm : ¬ p m = true := fun hpmt => hm (huniq m (Nat.lt_succ_self m) hpmt).symm
      rw [ih h0' (fun j hj hpj => huniq j (by omega) hpj)]
      simp [hpm]

lemma countP_pair_singleton (p : Int × Int → Bool) (x : Int × Int) :
    List.countP p [x] = if p x then 1 else 0 := by
  simp [List.countP_cons]

lemma mirrorIdxPairs_length (S : List Int) :
    (mirrorIdxPairs S).length = (S.length + 1) / 2 := by
  unfold mirrorIdxPairs
  by_cases h : S.length % 2 = 0 <;> simp [h] <;> omega

lemma mirrorIdxPairs_countP_zero (S : List Int) (s : Int) (hs : s ∉ S) :
    (mirrorIdxPairs S).countP (pairHas s) = 0 := by
  rw [List.countP_eq_zero]
  intro p hp
  unfold mirrorIdxPairs at hp
  rw [List.mem_append] at hp
  rcases hp with hp | hp
  · rw [List.mem_map] at hp
    obtain ⟨i, hi, rfl⟩ := hp
    rw [List.mem_range] at hi
    have h1 : i < S.length := by omega
    have h2 : S.length - 1 - i < S.length := by omega
    rw [List.getD_eq_getElem S 0 h1, List.getD_eq_getElem S 0 h2]
    simp only [pairHas, Bool.or_eq_true, beq_iff_eq]
    rintro (rfl | rfl)
    · exact hs (List.getElem_mem h1)
    · exact hs (List.getElem_mem h2)
  · by_cases h : S.length % 2 = 0
    · simp [h] at hp
    · rw [if_pos h] at hp
      rw [List.mem_singleton] at hp
      subst hp
      have h1 : S.length / 2 < S.length := by omega
      rw [List.getD_eq_getElem S 0 h1]
      simp only [pairHas, Bool.or_eq_true, beq_iff_eq]
      rintro (rfl | rfl) <;> exact hs (List.getElem_mem h1)

lemma mirrorIdxPairs_countP_one (S : List Int) (hnd : S.Nodup) (s : Int) (hs : s ∈ S) :
    (mirrorIdxPairs S).countP (pairHas s) = 1 := by
  obtain ⟨j, hj, hSj⟩ := List.mem_iff_getElem.mp hs
  have key : ∀ i, i < S.length →
      ((pairHas s (S.getD i 0, S.getD (S.length - 1 - i) 0)) = true ↔
        (i = j ∨ i = S.length - 1 - j)) := by
    intro i hi
    have h2 : S.length - 1 - i < S.length := by omega
    rw [List.getD_eq_getElem S 0 hi, List.getD_eq_getElem S 0 h2]
    simp only [pairHas, Bool.or_eq_true, beq_iff_eq]
    constructor
    · rintro (h | h)
      · left
        exact (hnd.getElem_inj_iff.mp (hSj.trans h)).symm
      · right
        have := hnd.getElem_inj_iff.mp (hSj.trans h)
        omega
    · rintro (rfl | rfl)
      · exact Or.inl hSj.symm
      · right
        rw [hSj.symm]
        have hidx : S.length - 1 - (S.length - 1 - j) = j := by omega
        simp only [hidx]
  unfold mirrorIdxPairs
  rw [List.countP_append, List.countP_map]
  rcases Nat.lt_trichotomy (2 * j + 1) S.length with hA | hB | hC
  · -- j is in the first half: counted once in the main loop, not in the middle
    have hmain : (List.range (S.length / 2)).countP
        ((pairHas s) ∘ fun i => (S.getD i 0, S.getD (S.length - 1 - i) 0)) = 1 := by
      apply countP_range_one _ _ j (by omega)
      · exact (key j (by omega)).mpr (Or.inl rfl)
      · intro j' hj' hpj'
        have := (key j' (by omega)).mp hpj'
        omega
    rw [hmain]
    by_cases h : S.length % 2 = 0
    · simp [h]
    · rw [if_pos h]
      have hmid : S.length / 2 < S.length := by omega
      have hne : ¬ (pairHas s (S.getD (S.length / 2) 0, S.getD (S.length / 2) 0)) = true := by
        rw [List.getD_eq_getElem S 0 hmid]
        simp only [pairHas, Bool.or_eq_true, beq_iff_eq]
        rintro (rfl | rfl) <;>
          · have := hnd.getElem_inj_iff.mp hSj
            omega
      rw [countP_pair_singleton, if_neg hne]
  · -- j is the exact middle of an odd-length list
    have hmain : (List.range (S.length / 2)).countP
        ((pairHas s) ∘ fun i => (S.getD i 0, S.getD (S.length - 1 - i) 0)) = 0 := by
      rw [List.countP_eq_zero]
      intro i hi hpi
      rw [List.mem_range] at hi
      have := (key i (by omega)).mp hpi
      omega
    rw [hmain]
    have hodd : ¬ S.length % 2 = 0 := by omega
    rw [if_pos hodd]
    have hmid : S.length / 2 < S.length := by omega
    have hjm : j = S.length / 2 := by omega
    have hyes : (pairHas s (S.getD (S.length / 2) 0, S.getD (S.length / 2) 0)) = true := by
      rw [List.getD_eq_getElem S 0 hmid]
      simp only [pairHas, Bool.or_eq_true, beq_iff_eq]
      left
      rw [← hSj]
      simp only [hjm]
    rw [countP_pair_singleton, if_pos hyes]
  · -- j is in the second half: its mirror partner index is counted once
    have hmain : (List.range (S.length / 2)).countP
        ((pairHas s) ∘ fun i => (S.getD i 0, S.getD (S.length - 1 - i) 0)) = 1 := by
      apply countP_range_one _ _ (S.length - 1 - j) (by omega)
      · exact (key (S.length - 1 - j) (by omega)).mpr (Or.inr rfl)
      · intro j' hj' hpj'
        have := (key j' (by omega)).mp hpj'
        omega
    rw [hmain]
    by_cases h : S.length % 2 = 0
    · simp [h]
    · rw [if_pos h]
      have hmid : S.length / 2 < S.length := by omega
      have hne : ¬ (pairHas s (S.getD (S.length / 2) 0, S.getD (S.length / 2) 0)) = true := by
        rw [List.getD_eq_getElem S 0 hmid]
        simp only [pairHas, Bool.or_eq_true, beq_iff_eq]
        rintro (rfl | rfl) <;>
          · have := hnd.getElem_inj_iff.mp hSj
            omega
      rw [countP_pair_singleton, if_neg hne]

lemma mirrorIdxPairs_countP_selfPairs (S : List Int) (hnd : S.Nodup) :
    (mirrorIdxPairs S).countP (fun p => p.1 == p.2) = S.length % 2 := by
  unfold mirrorIdxPairs
  rw [List.countP_append, List.countP_map]
  have main0 : (List.range (S.length / 2)).countP
      ((fun p : Int × Int => p.1 == p.2) ∘ fun i => (S.getD i 0, S.getD (S.length - 1 - i) 0)) = 0 := by
    rw [List.countP_eq_zero]
    intro i hi hq
    rw [List.mem_range] at hi
    have h1 : i < S.length := by omega
    have h2 : S.length - 1 - i < S.length := by omega
    simp only [Function.comp_apply, beq_iff_eq] at hq
    rw [List.getD_eq_getElem S 0 h1, List.getD_eq_getElem S 0 h2] at hq
    have := hnd.getElem_inj_iff.mp hq
    omega
  rw [main0]
  by_cases h : S.length % 2 = 0
  · simp [h]
  · rw [if_pos h]
    simp only [List.countP_cons, List.countP_nil, beq_self_eq_true, if_pos]
    omega

lemma mirror_pair_eq_render (l : List Int) :
    mirror_pair l = (mirrorIdxPairs (pySortedSet l)).map renderPair := by
  unfold mirror_pair mirrorIdxPairs renderPair
  by_cases h : (pySortedSet l).length % 2 = 0
  · simp [h, List.map_map, Function.comp]
  · simp [h, List.map_map, Function.comp]

lemma mirror_pair_length (l : List Int) :
    (mirror_pair l).length = ((pySortedSet l).length + 1) / 2 := by
  rw [mirror_pair_eq_render, List.length_map, mirrorIdxPairs_length]

lemma mirror_pair_nil : mirror_pair ([] : List Int) = [] := by decide

lemma mirror_pair_eq_nil_iff (l : List Int) : mirror_pair l = [] ↔ l = [] := by
  constructor
  · intro h
    by_contra hl
    obtain ⟨x, hx⟩ := List.exists_mem_of_ne_nil l hl
    have hx' : x ∈ pySortedSet l := (pySortedSet_mem l x).mpr hx
    have hlen : 0 < (pySortedSet l).length := List.length_pos.mpr (List.ne_nil_of_mem hx')
    have hml := mirror_pair_length l
    rw [h] at hml
    simp only [List.length_nil] at hml
    omega
  · intro h
    rw [h]
    exact mirror_pair_nil

lemma STATIONS_nodup : STATIONS.Nodup := by decide

lemma STATIONS_sorted_le : STATIONS.Sorted (· ≤ ·) := by decide

lemma get_operational_sorted (r : ProductionRotation) (line : String) :
    (r.get_operational_stations line).Sorted (· ≤ ·) :=
  List.sorted_insertionSort _ _

lemma get_operational_nodup (r : ProductionRotation) (line : String) (h : r.stations.Nodup) :
    (r.get_operational_stations line).Nodup :=
  (List.perm_insertionSort _ _).nodup_iff.mpr (List.Nodup.filter _ h)

lemma get_operational_mem (r : ProductionRotation) (line : String) (a : Int) :
    a ∈ r.get_operational_stations line ↔
      a ∈ r.stations ∧ a ∉ dget r.non_operational_stations line := by
  unfold ProductionRotation.get_operational_stations
  rw [(List.perm_insertionSort _ _).mem_iff, List.mem_filter]
  simp

lemma generate_pairs_nonspecial (r : ProductionRotation) (line : String) (hline : line ≠ "C") :
    r.generate_pairs line =
      if r.get_operational_stations line = [] then []
      else mirror_pair (r.get_operational_stations line) := by
  unfold ProductionRotation.generate_pairs
  rw [if_neg hline]

lemma generate_pairs_C (r : ProductionRotation) :
    r.generate_pairs "C" =
      ((dget r.fixed_stations "C").filter (fun s => s ∈ r.stations)).map
        (fun s => toString s ++ "-" ++ toString s) ++
      mirror_pair (r.stations.filter (fun s =>
        s ∉ (dget r.fixed_stations "C").filter (fun s => s ∈ r.stations) ∧
        s ∉ dget r.non_operational_stations "C")) := by
  unfold ProductionRotation.generate_pairs
  rw [if_pos rfl]
  by_cases h1 : (r.stations.filter (fun s =>
      s ∉ (dget r.fixed_stations "C").filter (fun s => s ∈ r.stations) ∧
      s ∉ dget r.non_operational_stations "C")) = []
  · by_cases h2 : ((dget r.fixed_stations "C").filter (fun s => s ∈ r.stations)) = []
    · rw [if_pos ⟨h1, h2⟩, h1, h2]
      simp [mirror_pair_nil]
    · rw [if_neg (fun hc => h2 hc.2), if_neg (fun hc => hc h1), h1]
      simp [mirror_pair_nil]
  · rw [if_neg (fun hc => h1 hc.1), if_pos h1]


lemma stateC_gen (fs us : List Int) :
    ((ProductionRotation.new.set_fixed "C" fs).set_non_operational "C" us).generate_pairs "C" =
      (validFixedC fs).map (fun s => toString s ++ "-" ++ toString s) ++
        mirror_pair (remainderC fs us) := by
  have hf : dget ((ProductionRotation.new.set_fixed "C" fs).set_non_operational
      "C" us).fixed_stations "C" = pySortedSet fs := dget_cons_self _ _ _
  have hn : dget ((ProductionRotation.new.set_fixed "C" fs).set_non_operational
      "C" us).non_operational_stations "C" = pySortedSet us := dget_cons_self _ _ _
  rw [generate_pairs_C, hf, hn]
  rfl

lemma validFixedC_nodup (fs : List Int) : (validFixedC fs).Nodup :=
  List.Nodup.filter _ (pySortedSet_nodup fs)

lemma validFixedC_sorted (fs : List Int) : (validFixedC fs).Sorted (· ≤ ·) :=
  List.Sorted.filter _ (pySortedSet_sorted fs)

lemma validFixedC_mem (fs : List Int) (a : Int) :
    a ∈ validFixedC fs ↔ a ∈ fs ∧ a ∈ STATIONS := by
  unfold validFixedC
  rw [List.mem_filter, pySortedSet_mem]
  simp

lemma remainderC_nodup (fs us : List Int) : (remainderC fs us).Nodup :=
  List.Nodup.filter _ STATIONS_nodup

lemma remainderC_sorted (fs us : List Int) : (remainderC fs us).Sorted (· ≤ ·) :=
  List.Sorted.filter _ STATIONS_sorted_le

lemma remainderC_mem (fs us : List Int) (a : Int) :
    a ∈ remainderC fs us ↔ a ∈ STATIONS ∧ a ∉ validFixedC fs ∧ a ∉ us := by
  unfold remainderC
  simp only [List.mem_filter, decide_eq_true_eq, pySortedSet_mem]

lemma generate_pairs_default (r : ProductionRotation) (line : String)
    (hst : r.stations = STATIONS)
    (hn : List.lookup line r.non_operational_stations = none)
    (hf : line = "C" → List.lookup "C" r.fixed_stations = none) :
    r.get_operational_stations line = STATIONS ∧
    r.generate_pairs line = mirror_pair STATIONS := by
  have hd : dget r.non_operational_stations line = [] := by
    unfold dget
    rw [hn]
    rfl
  have hops : r.get_operational_stations line = STATIONS := by
    unfold ProductionRotation.get_operational_stations
    simp only [hd, hst]
    rw [List.filter_eq_self.mpr (fun a ha => by simp)]
    exact STATIONS_sorted_le.insertionSort_eq
  refine ⟨hops, ?_⟩
  by_cases hlc : line = "C"
  · subst hlc
    have hfd : dget r.fixed_stations "C" = [] := by
      unfold dget
      rw [hf rfl]
      rfl
    rw [generate_pairs_C, hfd, hd, hst]
    simp only [List.filter_nil, List.map_nil, List.nil_append]
    rw [List.filter_eq_self.mpr (fun a ha => by simp)]
  · rw [generate_pairs_nonspecial r line hlc, hops, if_neg (by decide)]

/-- C1: `mirror_pair` deduplicates its input and sorts it ascending into a
sequence `S` of length `n`, and emits exactly the rendered pairs
`(S[i], S[n-1-i])` for `i < n / 2` followed by one middle self-pair when `n`
is odd; on a non-special line with the full universe `{1..20}` and nothing
unavailable, `generate_pairs` returns exactly the ten labels
`1-20, 2-19, …, 10-11` with no self-pair. -/
theorem C1_mirror_pair_spec :
    (∀ l : List Int,
      (pySortedSet l).Sorted (· ≤ ·) ∧ (pySortedSet l).Nodup ∧
      (∀ a, a ∈ pySortedSet l ↔ a ∈ l) ∧
      mirror_pair l = (mirrorIdxPairs (pySortedSet l)).map renderPair) ∧
    ProductionRotation.new.generate_pairs "B" =
      ["1-20", "2-19", "3-18", "4-17", "5-16", "6-15", "7-14", "8-13", "9-12", "10-11"] :=
  ⟨fun l => ⟨pySortedSet_sorted l, pySortedSet_nodup l, pySortedSet_mem l,
    mirror_pair_eq_render l⟩, by decide⟩

/-- C2: on every non-special line with a non-empty operable set of size `n`,
`generate_pairs` renders exactly the mirror pairs of the operable sequence:
`ceil(n/2)` entries, exactly `n % 2` self-pairs (one iff `n` is odd), and
every operable station occurs in exactly one emitted pair. -/
theorem C2_nonspecial_counts (r : ProductionRotation) (line : String)
    (hline : line ≠ "C") (hst : r.stations = STATIONS)
    (hn : 0 < (r.get_operational_stations line).length) :
    r.generate_pairs line =
      (mirrorIdxPairs (r.get_operational_stations line)).map renderPair ∧
    (r.generate_pairs line).length = ((r.get_operational_stations line).length + 1) / 2 ∧
    (mirrorIdxPairs (r.get_operational_stations line)).countP (fun p => p.1 == p.2) =
      (r.get_operational_stations line).length % 2 ∧
    ∀ s ∈ r.get_operational_stations line,
      (mirrorIdxPairs (r.get_operational_stations line)).countP (pairHas s) = 1 := by
  have hnd : (r.get_operational_stations line).Nodup :=
    get_operational_nodup r line (hst ▸ STATIONS_nodup)
  have hself : pySortedSet (r.get_operational_stations line) =
      r.get_operational_stations line :=
    pySortedSet_eq_self _ hnd (get_operational_sorted r line)
  have hnonempty : r.get_operational_stations line ≠ [] := by
    intro h
    rw [h] at hn
    simp at hn
  have hgen : r.generate_pairs line = mirror_pair (r.get_operational_stations line) := by
    rw [generate_pairs_nonspecial r line hline, if_neg hnonempty]
  refine ⟨?_, ?_, ?_, ?_⟩
  · rw [hgen, mirror_pair_eq_render, hself]
  · rw [hgen, mirror_pair_length, hself]
  · exact mirrorIdxPairs_countP_selfPairs _ hnd
  · exact fun s hs => mirrorIdxPairs_countP_one _ hnd s hs

theorem C2_witness : ProductionRotation.new.generate_pairs "B" =
    (mirrorIdxPairs (ProductionRotation.new.get_operational_stations "B")).map renderPair :=
  (C2_nonspecial_counts ProductionRotation.new "B" (by decide) rfl (by decide)).1

/-- C3: for the special line, `generate_pairs` emits the self-pairs of
`fixed = fixed_set ∩ universe` in ascending order first, then the mirror
pairs of `remainder = universe − fixed − unavailable`; the result is empty
exactly when both parts are empty; with fixed `{3,7}` and nothing unavailable
the output is `3-3, 7-7` followed by the mirror pairs of the remaining 18
stations. -/
theorem C3_special_line_structure (fs us : List Int) :
    (((ProductionRotation.new.set_fixed "C" fs).set_non_operational "C" us).generate_pairs "C" =
      (validFixedC fs).map (fun s => toString s ++ "-" ++ toString s) ++
        mirror_pair (remainderC fs us)) ∧
    (validFixedC fs).Sorted (· ≤ ·) ∧
    (∀ a, a ∈ validFixedC fs ↔ a ∈ fs ∧ a ∈ STATIONS) ∧
    (∀ a, a ∈ remainderC fs us ↔ a ∈ STATIONS ∧ a ∉ validFixedC fs ∧ a ∉ us) ∧
    (((ProductionRotation.new.set_fixed "C" fs).set_non_operational "C" us).generate_pairs "C"
       = [] ↔ validFixedC fs = [] ∧ remainderC fs us = []) ∧
    (ProductionRotation.new.set_fixed "C" [3, 7]).generate_pairs "C" =
      ["3-3", "7-7", "1-20", "2-19", "4-18", "5-17", "6-16", "8-15", "9-14", "10-13", "11-12"] := by
  refine ⟨stateC_gen fs us, validFixedC_sorted fs, validFixedC_mem fs,
    remainderC_mem fs us, ?_, by decide⟩
  rw [stateC_gen fs us]
  constructor
  · intro h
    obtain ⟨h1, h2⟩ := List.append_eq_nil.mp h
    exact ⟨List.map_eq_nil_iff.mp h1, (mirror_pair_eq_nil_iff _).mp h2⟩
  · rintro ⟨h1, h2⟩
    rw [h1, h2]
    simp [mirror_pair_nil]

/-- C4: `mirror_pair` is order- and duplication-independent — two input
collections holding the same set of stations produce identical output. -/
theorem C4_order_independent (l1 l2 : List Int) (h : l1.toFinset = l2.toFinset) :
    mirror_pair l1 = mirror_pair l2 := by
  have hmem : ∀ a, a ∈ l1 ↔ a ∈ l2 := by
    intro a
    rw [← List.mem_toFinset, ← List.mem_toFinset, h]
  rw [mirror_pair_eq_render, mirror_pair_eq_render, pySortedSet_congr l1 l2 hmem]

theorem C4_witness : mirror_pair [2, 1, 1] = mirror_pair [1, 2] :=
  C4_order_independent [2, 1, 1] [1, 2] (by decide)

lemma countP_beq_count (s : Int) (l : List Int) :
    l.countP (fun a => s == a) = l.count s := by
  unfold List.count
  apply List.countP_congr
  intro a ha
  by_cases h : s = a
  · subst h
    simp
  · have h2 : ¬a = s := fun hh => h hh.symm
    simp [h, h2]

/-- C5: when the fixed set and the unavailable set of line C overlap, the
validation step reports failure and the submit flow produces no schedule;
the engine itself performs no such check — `generate_pairs` on a conflicting
configuration still computes a full pairing (scenario: fixed `{5}`,
unavailable `{5}`). -/
theorem C5_conflict_rejected (acc : List Int) (nonop : Dct) (d : String)
    (h : ∃ s, s ∈ acc ∧ s ∈ dget nonop "C") :
    validate_line_c_configuration acc nonop = false ∧
    main_submit nonop acc d = none ∧
    ((ProductionRotation.new.set_fixed "C" [5]).set_non_operational "C" [5]).generate_pairs
      "C" = ["5-5", "1-20", "2-19", "3-18", "4-17", "6-16", "7-15", "8-14", "9-13",
        "10-12", "11-11"] := by
  obtain ⟨s, hs1, hs2⟩ := h
  have hmem : s ∈ line_c_common_stations acc nonop := by
    unfold line_c_common_stations
    rw [pySortedSet_mem, List.mem_filter]
    exact ⟨hs1, by simpa using hs2⟩
  have hval : validate_line_c_configuration acc nonop = false := by
    unfold validate_line_c_configuration
    rw [List.isEmpty_eq_false]
    exact List.ne_nil_of_mem hmem
  refine ⟨hval, ?_, by decide⟩
  unfold main_submit
  rw [hval]
  rfl

theorem C5_witness :
    validate_line_c_configuration [5] [("C", [5])] = false ∧
    main_submit [("C", [5])] [5] "01/01/2025" = none ∧
    ((ProductionRotation.new.set_fixed "C" [5]).set_non_operational "C" [5]).generate_pairs
      "C" = ["5-5", "1-20", "2-19", "3-18", "4-17", "6-16", "7-15", "8-14", "9-13",
        "10-12", "11-11"] :=
  C5_conflict_rejected [5] [("C", [5])] "01/01/2025" ⟨5, by decide, by decide⟩

/-- C6: `set_non_operational` and `set_fixed` store the deduplicated
ascending-sorted set of the given stations (no station-range validation:
membership is preserved verbatim), fully replace any prior stored set for
that line, and leave the other line's entries and all other state components
unchanged. -/
theorem C6_setters_replace (r : ProductionRotation) (line l' : String)
    (st st2 : List Int) (h : l' ≠ line) :
    dget (r.set_non_operational line st).non_operational_stations line = pySortedSet st ∧
    dget (r.set_fixed line st).fixed_stations line = pySortedSet st ∧
    (pySortedSet st).Sorted (· ≤ ·) ∧
    (pySortedSet st).Nodup ∧
    (∀ a, a ∈ pySortedSet st ↔ a ∈ st) ∧
    dget ((r.set_non_operational line st2).set_non_operational line st).non_operational_stations
      line = pySortedSet st ∧
    dget ((r.set_fixed line st2).set_fixed line st).fixed_stations line = pySortedSet st ∧
    dget (r.set_non_operational line st).non_operational_stations l' =
      dget r.non_operational_stations l' ∧
    dget (r.set_fixed line st).fixed_stations l' = dget r.fixed_stations l' ∧
    (r.set_non_operational line st).fixed_stations = r.fixed_stations ∧
    (r.set_fixed line st).non_operational_stations = r.non_operational_stations ∧
    (r.set_non_operational line st).stations = r.stations ∧
    (r.set_fixed line st).stations = r.stations :=
  ⟨dget_cons_self _ _ _, dget_cons_self _ _ _, pySortedSet_sorted st,
    pySortedSet_nodup st, pySortedSet_mem st, dget_cons_self _ _ _, dget_cons_self _ _ _,
    dget_cons_ne _ _ _ _ (Ne.symm h), dget_cons_ne _ _ _ _ (Ne.symm h),
    rfl, rfl, rfl, rfl⟩

theorem C6_witness :
    dget (ProductionRotation.new.set_non_operational "B" [7, 3, 7, 99]).non_operational_stations
      "B" = pySortedSet [7, 3, 7, 99] :=
  (C6_setters_replace ProductionRotation.new "B" "M" [7, 3, 7, 99] [1] (by decide)).1

/-- C7: the fixed-station sets of non-special lines are never read — any two
engine states with the same station universe, the same unavailability map and
the same stored fixed set for line C produce identical `generate_pairs`
output on every line. -/
theorem C7_fixed_no_effect (r1 r2 : ProductionRotation) (line : String)
    (hst : r1.stations = r2.stations)
    (hnonop : r1.non_operational_stations = r2.non_operational_stations)
    (hfixC : dget r1.fixed_stations "C" = dget r2.fixed_stations "C") :
    r1.generate_pairs line = r2.generate_pairs line := by
  unfold ProductionRotation.generate_pairs ProductionRotation.get_operational_stations
  rw [hst, hnonop, hfixC]

theorem C7_witness :
    (ProductionRotation.new.set_fixed "B" [1, 2]).generate_pairs "M" =
      ProductionRotation.new.generate_pairs "M" :=
  C7_fixed_no_effect _ _ "M" rfl rfl (by decide)

/-- C8: `get_operational_stations` returns exactly the station universe minus
the line's unavailable set, in ascending order without duplicates, as a
function of the current state; a non-special line whose unavailable set
covers the whole universe yields an empty pairing. -/
theorem C8_operational_stations (r : ProductionRotation) (line : String)
    (hst : r.stations = STATIONS) :
    (∀ a, a ∈ r.get_operational_stations line ↔
      a ∈ STATIONS ∧ a ∉ dget r.non_operational_stations line) ∧
    (r.get_operational_stations line).Sorted (· ≤ ·) ∧
    (r.get_operational_stations line).Nodup ∧
    (line ≠ "C" → (∀ s ∈ STATIONS, s ∈ dget r.non_operational_stations line) →
      r.generate_pairs line = []) ∧
    (ProductionRotation.new.set_non_operational "B" STATIONS).generate_pairs "B" = [] := by
  refine ⟨fun a => by rw [get_operational_mem, hst], get_operational_sorted r line,
    get_operational_nodup r line (hst ▸ STATIONS_nodup), ?_, by decide⟩
  intro hline hcover
  have hops : r.get_operational_stations line = [] := by
    refine List.eq_nil_iff_forall_not_mem.mpr (fun a ha => ?_)
    rw [get_operational_mem] at ha
    exact ha.2 (hcover a (hst ▸ ha.1))
  rw [generate_pairs_nonspecial r line hline, if_pos hops]

theorem C8_witness :
    (ProductionRotation.new.set_non_operational "B" STATIONS).generate_pairs "B" = [] :=
  (C8_operational_stations ProductionRotation.new "B" rfl).2.2.2.2

/-- C9: a missing dictionary entry defaults to the empty set — in any engine
state, a line whose unavailability was never set (and, when that line is the
special line C, whose fixed set was never set) has the whole universe
`{1..20}` as its operable stations, in ascending order, and its
`generate_pairs` is the full mirror pairing of the universe with no fixed
self-pairs; in particular both hold for every line of a freshly constructed
engine. -/
theorem C9_default_universe (r : ProductionRotation) (line : String)
    (hst : r.stations = STATIONS)
    (hn : List.lookup line r.non_operational_stations = none)
    (hf : line = "C" → List.lookup "C" r.fixed_stations = none) :
    r.get_operational_stations line = STATIONS ∧
    r.generate_pairs line = mirror_pair STATIONS ∧
    ProductionRotation.new.get_operational_stations line = STATIONS ∧
    ProductionRotation.new.generate_pairs line = mirror_pair STATIONS := by
  obtain ⟨h1, h2⟩ := generate_pairs_default r line hst hn hf
  obtain ⟨h3, h4⟩ := generate_pairs_default ProductionRotation.new line rfl rfl
    (fun _ => rfl)
  exact ⟨h1, h2, h3, h4⟩

theorem C9_witness :
    (ProductionRotation.new.set_fixed "C" [3]).generate_pairs "B" = mirror_pair STATIONS :=
  (C9_default_universe (ProductionRotation.new.set_fixed "C" [3]) "B" rfl rfl
    (by decide)).2.1

/-- C10: partition property for the special line — assuming the fixed and
unavailable sets are disjoint, every station of the universe that is not
unavailable occurs in exactly one emitted entry of line C (a fixed self-pair
or one mirror pair), and `generate_pairs` renders exactly those pairs. -/
theorem C10_special_partition (fs us : List Int) (_hdisj : ∀ s ∈ fs, s ∉ us) :
    ((ProductionRotation.new.set_fixed "C" fs).set_non_operational "C" us).generate_pairs "C" =
      (lineCPairs fs us).map renderPair ∧
    ∀ s ∈ STATIONS, s ∉ us → (lineCPairs fs us).countP (pairHas s) = 1 := by
  constructor
  · rw [stateC_gen fs us]
    unfold lineCPairs
    rw [List.map_append, List.map_map,
      mirror_pair_eq_render, pySortedSet_eq_self _ (remainderC_nodup fs us)
        (remainderC_sorted fs us)]
    rfl
  · intro s hsS hsU
    unfold lineCPairs
    rw [List.countP_append, List.countP_map]
    have hcomp : (pairHas s ∘ fun a : Int => (a, a)) = fun a : Int => s == a := by
      funext a
      simp [pairHas]
    rw [hcomp, countP_beq_count]
    by_cases hv : s ∈ validFixedC fs
    · have hnr : s ∉ remainderC fs us := fun hr => ((remainderC_mem fs us s).mp hr).2.1 hv
      rw [List.count_eq_one_of_mem (validFixedC_nodup fs) hv,
        mirrorIdxPairs_countP_zero _ s hnr]
    · have hr : s ∈ remainderC fs us := (remainderC_mem fs us s).mpr ⟨hsS, hv, hsU⟩
      rw [List.count_eq_zero_of_not_mem hv,
        mirrorIdxPairs_countP_one _ (remainderC_nodup fs us) s hr]

theorem C10_witness :
    ((ProductionRotation.new.set_fixed "C" [3, 7]).set_non_operational "C" [4]).generate_pairs
      "C" = (lineCPairs [3, 7] [4]).map renderPair :=
  (C10_special_partition [3, 7] [4] (by decide)).1
